import Mathlib

/-!
# Verification of the strands-swarms core

Shallow embedding of the task/agent definition registry, dependency-graph
validation, task-lifecycle state machine and event dispatch of the
`strands_swarms` package, together with proofs of the specification's
testable properties.

Source files embedded here:
* `src/strands_swarms/task.py` — `Task`, `Task.transition_to`
* `src/strands_swarms/swarm.py` / `definition.py` — `SwarmConfig` /
  `SwarmDefinition` registries (`register_agent`, `register_task`,
  `set_entry_task`, `clear`)
* `src/strands_swarms/events.py` — event kinds and their
  `should_reverse_callbacks` flags
* `src/strands_swarms/dynamic_swarm.py` — `DynamicSwarmResult.get_output`,
  `DynamicSwarm.stream_async`, `DynamicSwarm._synthesize_final_response`

Timestamps (`datetime.now()`) are modelled as abstract `Nat` values passed
explicitly; exceptions are modelled with `Except`, with one error-type
constructor per `raise` site of the source.
-/

namespace StrandsSwarms

/-- `strands.multiagent.base.Status`, as used throughout the package. -/
inductive Status where
  | pending
  | executing
  | completed
  | failed
  | interrupted
deriving DecidableEq, Repr

/-- `TERMINAL_STATUSES` from `task.py`. -/
def TERMINAL_STATUSES : List Status := [.completed, .failed, .interrupted]

/-- `Task._VALID_TRANSITIONS` from `task.py`; statuses absent from the dict
give the empty set (the `.get(self.status, set())` default). -/
def validTransitions : Status → List Status
  | .pending => [.executing, .interrupted]
  | .executing => [.completed, .failed, .interrupted]
  | _ => []

/-- The mutable lifecycle record of `task.py`'s `Task` dataclass.  The opaque
`result` payload is modelled as its string rendering. -/
structure Task where
  name : String
  agent : String
  description : Option String
  depends_on : List String
  status : Status
  started_at : Option Nat
  completed_at : Option Nat
  result : Option String
  error : Option String
deriving DecidableEq, Repr

/-- The single `raise ValueError` site of `Task.transition_to`, carrying the
`(from, to)` pair interpolated into the message. -/
inductive TransitionError where
  | invalidTransition (fromStatus toStatus : Status)
deriving DecidableEq, Repr

/-- A `Task` as built by `TaskManager.create`: status `Pending`, no
timestamps, no result, no error. -/
def initTask (name agent : String) (description : Option String)
    (depends_on : List String) : Task :=
  { name := name, agent := agent, description := description,
    depends_on := depends_on, status := .pending, started_at := none,
    completed_at := none, result := none, error := none }

/-- `Task.transition_to` from `task.py`.  The source raises before any field
assignment, so the error branch returns no successor state; on success the
status is updated, `started_at` is stamped when entering `EXECUTING`,
`completed_at` when entering a terminal status, and the `result` / `error`
keyword arguments overwrite their fields when supplied. -/
def Task.transition_to (t : Task) (new_status : Status) (now : Nat)
    (result : Option String) (error : Option String) :
    Except TransitionError Task :=
  if new_status ∈ validTransitions t.status then
    let t1 := { t with status := new_status }
    let t2 :=
      if new_status = .executing then { t1 with started_at := some now }
      else if new_status ∈ TERMINAL_STATUSES then
        { t1 with completed_at := some now }
      else t1
    let t3 := match result with
      | some r => { t2 with result := some r }
      | none => t2
    let t4 := match error with
      | some e => { t3 with error := some e }
      | none => t3
    .ok t4
  else
    .error (.invalidTransition t.status new_status)

/-- States of a `Task` reachable from its freshly-created `Pending` state by
successful `transition_to` calls (the only mutations `TaskManager.start` /
`complete` / `fail` / `interrupt` perform). -/
inductive Reached : Task → Prop where
  | init (name agent : String) (description : Option String)
      (depends_on : List String) :
      Reached (initTask name agent description depends_on)
  | step {t t' : Task} (s : Status) (now : Nat) (r e : Option String) :
      Reached t → t.transition_to s now r e = .ok t' → Reached t'

/-! ## Agent / task registries (`swarm.py` `SwarmConfig`, identical validation
logic in `definition.py` `SwarmDefinition`) -/

/-- `AgentDefinition` from `swarm.py` / `definition.py`. -/
structure AgentDefinition where
  name : String
  role : String
  instructions : Option String
  tools : List String
  model : Option String
  color : Option String
deriving DecidableEq, Repr

/-- `TaskDefinition` from `swarm.py` / `definition.py`. -/
structure TaskDefinition where
  name : String
  agent : String
  description : Option String
  depends_on : List String
deriving DecidableEq, Repr

/-- `AGENT_COLORS` from `registry.py` (re-exported through `events.py`). -/
def AGENT_COLORS : List String :=
  ["\x1b[94m", "\x1b[92m", "\x1b[93m", "\x1b[95m", "\x1b[96m", "\x1b[91m"]

/-- One constructor per `raise ValueError` site of the registration methods,
carrying the value interpolated into the message. -/
inductive RegError where
  | agentExists (name : String)
  | toolNotAvailable (tool : String)
  | modelNotAvailable (model : String)
  | taskExists (name : String)
  | agentNotFound (agent : String)
  | dependencyNotFound (dep : String)
  | taskNotFound (name : String)
deriving DecidableEq, Repr

/-- Python `name in dict` on an insertion-ordered dict modelled as an
association list. -/
def keyMem {β : Type} (n : String) (l : List (String × β)) : Bool :=
  (l.lookup n).isSome

/-- `SwarmConfig` from `swarm.py`.  The tool/model pools are dicts whose
values are opaque callables / `Model` handles; only their key sets matter to
the registration logic, so they are modelled by their key lists. -/
structure SwarmConfig where
  available_tools : List String
  available_models : List String
  default_model : Option String
  agents : List (String × AgentDefinition)
  tasks : List (String × TaskDefinition)
  entry_task : Option String
  color_index : Nat
deriving DecidableEq, Repr

/-- Python `a or b` on `str | None` values: `None` and `""` are falsy. -/
def orStr (a b : Option String) : Option String :=
  match a with
  | some s => if s = "" then b else some s
  | none => b

/-- `SwarmConfig.__init__`: empty registries, color index 0, and
`default_model = default_model or next(iter(available_models.keys()), None)`. -/
def freshConfig (tools models : List String) (default_model : Option String) :
    SwarmConfig :=
  { available_tools := tools, available_models := models,
    default_model := orStr default_model models.head?,
    agents := [], tasks := [], entry_task := none, color_index := 0 }

/-- The palette color assigned at color index `i`:
`AGENT_COLORS[i % len(AGENT_COLORS)]`. -/
def colorFor (i : Nat) : String :=
  AGENT_COLORS.getD (i % AGENT_COLORS.length) ""

/-- The success path of `register_agent`: store the definition with its
assigned color appended to the insertion-ordered dict, and increment the
color-index counter. -/
def SwarmConfig.pushAgent (c : SwarmConfig) (d : AgentDefinition) :
    SwarmConfig :=
  { c with
    agents := c.agents ++
      [(d.name, { d with color := some (colorFor c.color_index) })],
    color_index := c.color_index + 1 }

/-- `SwarmConfig.register_agent` from `swarm.py` (same checks in the same
order as `SwarmDefinition.register_agent` in `definition.py`): duplicate-name
check, then each tool in list order against the pool, then the model if it is
truthy, then color assignment, increment and store. -/
def SwarmConfig.register_agent (c : SwarmConfig) (d : AgentDefinition) :
    Except RegError SwarmConfig :=
  if keyMem d.name c.agents then .error (.agentExists d.name)
  else
    match d.tools.find? (fun t => !(c.available_tools.contains t)) with
    | some t => .error (.toolNotAvailable t)
    | none =>
      match d.model with
      | some m =>
        if m ≠ "" ∧ m ∉ c.available_models then .error (.modelNotAvailable m)
        else .ok (c.pushAgent d)
      | none => .ok (c.pushAgent d)

/-- `SwarmConfig.register_task` from `swarm.py` (identical to
`SwarmDefinition.register_task` in `definition.py`): duplicate-name check,
then the assigned agent must exist, then every dependency in list order must
name an already-registered task; only then is the definition stored. -/
def SwarmConfig.register_task (c : SwarmConfig) (d : TaskDefinition) :
    Except RegError SwarmConfig :=
  if keyMem d.name c.tasks then .error (.taskExists d.name)
  else if keyMem d.agent c.agents then
    match d.depends_on.find? (fun dep => !(keyMem dep c.tasks)) with
    | some dep => .error (.dependencyNotFound dep)
    | none => .ok { c with tasks := c.tasks ++ [(d.name, d)] }
  else .error (.agentNotFound d.agent)

/-- `SwarmConfig.set_entry_task` from `swarm.py`. -/
def SwarmConfig.set_entry_task (c : SwarmConfig) (task_name : String) :
    Except RegError SwarmConfig :=
  if keyMem task_name c.tasks then .ok { c with entry_task := some task_name }
  else .error (.taskNotFound task_name)

/-- `SwarmConfig.clear` from `swarm.py`: empties both registries, resets the
color index and the entry task. -/
def SwarmConfig.clear (c : SwarmConfig) : SwarmConfig :=
  { c with agents := [], tasks := [], color_index := 0, entry_task := none }

/-- Sequential `register_task` calls, stopping at the first error. -/
def register_tasks (c : SwarmConfig) :
    List TaskDefinition → Except RegError SwarmConfig
  | [] => .ok c
  | d :: ds =>
    match c.register_task d with
    | .ok c' => register_tasks c' ds
    | .error e => .error e

/-- Sequential `register_agent` calls, stopping at the first error. -/
def register_agents (c : SwarmConfig) :
    List AgentDefinition → Except RegError SwarmConfig
  | [] => .ok c
  | d :: ds =>
    match c.register_agent d with
    | .ok c' => register_agents c' ds
    | .error e => .error e

/-! ## The dependency graph built from a task registry

`build_swarm` (in both `swarm.py` and `dynamic_swarm.py`) emits one node per
registered task and one edge `(dep, dependent)` for every entry of each
task's `depends_on`. -/

/-- Edge of the built graph: `b` is a registered task listing `a` among its
dependencies. -/
def taskEdge (ts : List (String × TaskDefinition)) (a b : String) : Prop :=
  ∃ d, ts.lookup b = some d ∧ a ∈ d.depends_on

/-- Nonempty directed path along dependency edges. -/
inductive TaskPath (ts : List (String × TaskDefinition)) :
    String → String → Prop where
  | single {a b : String} : taskEdge ts a b → TaskPath ts a b
  | cons {a b c : String} : taskEdge ts a b → TaskPath ts b c →
      TaskPath ts a c

/-- The graph has no directed cycle. -/
def AcyclicTasks (ts : List (String × TaskDefinition)) : Prop :=
  ∀ a, ¬ TaskPath ts a a

/-- Every registered task's dependencies are themselves registered (the
invariant `register_task`'s dependency check maintains). -/
def ClosedTasks (ts : List (String × TaskDefinition)) : Prop :=
  ∀ p ∈ ts, ∀ dep ∈ p.2.depends_on, keyMem dep ts = true

theorem lookup_append {β : Type} (l₁ l₂ : List (String × β)) (a : String) :
    (l₁ ++ l₂).lookup a = ((l₁.lookup a).or (l₂.lookup a)) := by
  induction l₁ with
  | nil => simp [List.lookup]
  | cons p l ih =>
    by_cases h : a = p.1
    · simp [List.lookup, h]
    · have hb : (a == p.1) = false := beq_false_of_ne h
      simp [List.lookup, hb, ih]

theorem mem_of_lookup {β : Type} {l : List (String × β)} {a : String}
    {v : β} (h : l.lookup a = some v) : (a, v) ∈ l := by
  induction l with
  | nil => simp [List.lookup] at h
  | cons p l ih =>
    by_cases he : a = p.1
    · subst he
      simp [List.lookup] at h
      simp [← h]
    · have hb : (a == p.1) = false := beq_false_of_ne he
      simp [List.lookup, hb] at h
      exact List.mem_cons_of_mem _ (ih h)

theorem keyMem_append_left {β : Type} {l₁ : List (String × β)}
    (l₂ : List (String × β)) {a : String} (h : keyMem a l₁ = true) :
    keyMem a (l₁ ++ l₂) = true := by
  unfold keyMem at *
  rw [lookup_append]
  cases hl : l₁.lookup a with
  | none => rw [hl] at h; simp at h
  | some v => simp [hl]

theorem closedTasks_nil : ClosedTasks [] := by
  intro p hp
  simp at hp

theorem acyclicTasks_nil : AcyclicTasks [] := by
  intro a hpath
  cases hpath with
  | single h => obtain ⟨d, hd, _⟩ := h; simp [List.lookup] at hd
  | cons h _ => obtain ⟨d, hd, _⟩ := h; simp [List.lookup] at hd

/-- A freshly appended task (its name previously unregistered) has no
outgoing edge: no already-registered task can depend on it, nor can it
depend on itself. -/
theorem no_edge_from_new {ts : List (String × TaskDefinition)}
    {n : String} {d : TaskDefinition}
    (hclosed : ClosedTasks ts) (hn : keyMem n ts = false)
    (hdeps : ∀ dep ∈ d.depends_on, keyMem dep ts = true) :
    ∀ b, ¬ taskEdge (ts ++ [(n, d)]) n b := by
  intro b hedge
  obtain ⟨d0, hlk, hmem⟩ := hedge
  rw [lookup_append] at hlk
  cases hts : ts.lookup b with
  | some v =>
    rw [hts] at hlk
    simp at hlk
    have hmem' : n ∈ v.depends_on := by rw [hlk]; exact hmem
    have hbv : (b, v) ∈ ts := mem_of_lookup hts
    have := hclosed (b, v) hbv n hmem'
    rw [this] at hn
    exact absurd hn (by simp)
  | none =>
    rw [hts] at hlk
    by_cases hb : b = n
    · have hbeq : (b == n) = true := beq_iff_eq.mpr hb
      simp [List.lookup, hbeq] at hlk
      have hmem' : n ∈ d.depends_on := by rw [hlk]; exact hmem
      have := hdeps n hmem'
      rw [this] at hn
      exact absurd hn (by simp)
    · simp [List.lookup, beq_false_of_ne hb] at hlk

/-- No path can start at the freshly appended task. -/
theorem no_path_from_new {ts : List (String × TaskDefinition)}
    {n : String} {d : TaskDefinition}
    (hclosed : ClosedTasks ts) (hn : keyMem n ts = false)
    (hdeps : ∀ dep ∈ d.depends_on, keyMem dep ts = true) :
    ∀ b, ¬ TaskPath (ts ++ [(n, d)]) n b := by
  intro b hpath
  cases hpath with
  | single h => exact no_edge_from_new hclosed hn hdeps _ h
  | cons h _ => exact no_edge_from_new hclosed hn hdeps _ h

/-- A path in the extended registry that avoids the new task at both ends is
already a path of the old registry. -/
theorem path_restrict {ts : List (String × TaskDefinition)}
    {n : String} {d : TaskDefinition}
    (hclosed : ClosedTasks ts) (hn : keyMem n ts = false)
    (hdeps : ∀ dep ∈ d.depends_on, keyMem dep ts = true)
    {x y : String} (hpath : TaskPath (ts ++ [(n, d)]) x y)
    (hx : x ≠ n) (hy : y ≠ n) : TaskPath ts x y := by
  induction hpath with
  | @single a b hedge =>
    obtain ⟨d0, hlk, hmem⟩ := hedge
    rw [lookup_append] at hlk
    cases hts : ts.lookup b with
    | some v =>
      rw [hts] at hlk
      simp at hlk
      have hmem' : a ∈ v.depends_on := by rw [hlk]; exact hmem
      exact TaskPath.single ⟨v, hts, hmem'⟩
    | none =>
      rw [hts] at hlk
      simp [List.lookup, beq_false_of_ne hy] at hlk
  | @cons a b c hedge hrest ih =>
    by_cases hb : b = n
    · subst hb
      exact absurd hrest (no_path_from_new hclosed hn hdeps _)
    · obtain ⟨d0, hlk, hmem⟩ := hedge
      rw [lookup_append] at hlk
      cases hts : ts.lookup b with
      | some v =>
        rw [hts] at hlk
        simp at hlk
        have hmem' : a ∈ v.depends_on := by rw [hlk]; exact hmem
        exact TaskPath.cons ⟨v, hts, hmem'⟩ (ih hb hy)
      | none =>
        rw [hts] at hlk
        simp [List.lookup, beq_false_of_ne hb] at hlk

/-- Appending a task whose name is fresh and whose dependencies are all
already registered preserves acyclicity. -/
theorem acyclic_append {ts : List (String × TaskDefinition)}
    {n : String} {d : TaskDefinition}
    (hacyc : AcyclicTasks ts) (hclosed : ClosedTasks ts)
    (hn : keyMem n ts = false)
    (hdeps : ∀ dep ∈ d.depends_on, keyMem dep ts = true) :
    AcyclicTasks (ts ++ [(n, d)]) := by
  intro a hpath
  by_cases ha : a = n
  · subst ha
    exact no_path_from_new hclosed hn hdeps _ hpath
  · exact hacyc a (path_restrict hclosed hn hdeps hpath ha ha)

/-- Appending such a task also preserves closedness. -/
theorem closed_append {ts : List (String × TaskDefinition)}
    {n : String} {d : TaskDefinition} (hclosed : ClosedTasks ts)
    (hdeps : ∀ dep ∈ d.depends_on, keyMem dep ts = true) :
    ClosedTasks (ts ++ [(n, d)]) := by
  intro p hp dep hdep
  rcases List.mem_append.mp hp with hold | hnew
  · exact keyMem_append_left _ (hclosed p hold dep hdep)
  · simp at hnew
    subst hnew
    exact keyMem_append_left _ (hdeps dep hdep)

/-- `register_task` succeeds, appending the definition, exactly when the name
is fresh, the assigned agent exists, and every dependency is already
registered. -/
theorem register_task_ok {c : SwarmConfig} {d : TaskDefinition}
    (h1 : keyMem d.name c.tasks = false)
    (h2 : keyMem d.agent c.agents = true)
    (h3 : ∀ dep ∈ d.depends_on, keyMem dep c.tasks = true) :
    c.register_task d = .ok { c with tasks := c.tasks ++ [(d.name, d)] } := by
  have hf : d.depends_on.find? (fun dep => !(keyMem dep c.tasks)) = none := by
    rw [List.find?_eq_none]
    intro x hx
    simp [h3 x hx]
  simp [SwarmConfig.register_task, h1, h2, hf]

/-- Inversion: a successful `register_task` came through all three checks and
only appended the definition. -/
theorem register_task_ok_inv {c c' : SwarmConfig} {d : TaskDefinition}
    (h : c.register_task d = .ok c') :
    keyMem d.name c.tasks = false ∧ keyMem d.agent c.agents = true ∧
    (∀ dep ∈ d.depends_on, keyMem dep c.tasks = true) ∧
    c' = { c with tasks := c.tasks ++ [(d.name, d)] } := by
  unfold SwarmConfig.register_task at h
  by_cases h1 : keyMem d.name c.tasks = true
  · simp [h1] at h
  · rw [if_neg (by simpa using h1)] at h
    by_cases h2 : keyMem d.agent c.agents = true
    · rw [if_pos h2] at h
      cases hf : d.depends_on.find? (fun dep => !(keyMem dep c.tasks)) with
      | some dep => rw [hf] at h; simp at h
      | none =>
        rw [hf] at h
        simp at h
        refine ⟨by simpa using h1, h2, ?_, h.symm⟩
        intro dep hdep
        have := List.find?_eq_none.mp hf dep hdep
        simpa using this
    · rw [if_neg h2] at h
      simp at h

/-- Inversion: a successful `register_agent` had a fresh name and produced
exactly `pushAgent`. -/
theorem register_agent_ok_inv {c c' : SwarmConfig} {d : AgentDefinition}
    (h : c.register_agent d = .ok c') :
    keyMem d.name c.agents = false ∧ c' = c.pushAgent d := by
  unfold SwarmConfig.register_agent at h
  by_cases h1 : keyMem d.name c.agents = true
  · simp [h1] at h
  · rw [if_neg (by simpa using h1)] at h
    cases hf : d.tools.find? (fun t => !(c.available_tools.contains t)) with
    | some t => rw [hf] at h; simp at h
    | none =>
      rw [hf] at h
      cases hm : d.model with
      | some m =>
        rw [hm] at h
        dsimp only at h
        by_cases hbad : m ≠ "" ∧ m ∉ c.available_models
        · rw [if_pos hbad] at h; simp at h
        · rw [if_neg hbad] at h
          simp at h
          exact ⟨by simpa using h1, h.symm⟩
      | none =>
        rw [hm] at h
        dsimp only at h
        simp at h
        exact ⟨by simpa using h1, h.symm⟩

/-! ## Event kinds and callback ordering (`events.py`) -/

/-- The lifecycle event kinds defined in `events.py`. -/
inductive EventKind where
  | swarmStarted
  | planningStarted
  | agentSpawned
  | taskCreated
  | planningCompleted
  | executionStarted
  | taskStarted
  | taskCompleted
  | taskFailed
  | taskInterrupted
  | executionCompleted
  | swarmCompleted
  | swarmFailed
deriving DecidableEq, Repr

/-- `should_reverse_callbacks` per event class in `events.py`: the six
completion-style events override it to `True`; the remaining events inherit
the `False` default of the `strands` `BaseHookEvent` base class (modelled
from the spec, which documents a per-kind `reversed` flag defaulting to
normal order: the base class lives in the external `strands` package). -/
def should_reverse_callbacks : EventKind → Bool
  | .taskCompleted => true
  | .taskFailed => true
  | .taskInterrupted => true
  | .executionCompleted => true
  | .swarmCompleted => true
  | .swarmFailed => true
  | _ => false

/-- The completion-style kinds named by the spec. -/
def completionKinds : List EventKind :=
  [.taskCompleted, .taskFailed, .taskInterrupted, .executionCompleted,
   .swarmCompleted, .swarmFailed]

/-- Modelled from the spec: `HookRegistry.invoke_callbacks` lives in the
external `strands` package; per §4.5 it delivers an event to the observers
registered for its kind in registration order, or in reverse registration
order when the kind's reversed flag is set.  The returned list is the
invocation order of the observers. -/
def deliveryOrder {α : Type} (callbacks : List α) (k : EventKind) : List α :=
  if should_reverse_callbacks k then callbacks.reverse else callbacks

/-! ## Pipeline results and phases (`dynamic_swarm.py`) -/

/-- A per-node result as the pipeline consumes it: `str(node_result.result)`
is the only use, so the payload is modelled by that string rendering. -/
structure NodeResult where
  resultText : String
deriving DecidableEq, Repr

/-- The `GraphResult` the external execution engine returns: an overall
status plus an insertion-ordered `results` dict keyed by node (task) name. -/
structure GraphResultM where
  status : Status
  results : List (String × NodeResult)
deriving DecidableEq, Repr

/-- `DynamicSwarmResult` from `dynamic_swarm.py` / `swarm.py`. -/
structure DynamicSwarmResultM where
  status : Status
  planning_output : Option String
  execution_result : Option GraphResultM
  final_response : Option String
  agents_spawned : Nat
  tasks_created : Nat
  error : Option String
deriving DecidableEq, Repr

/-- `DynamicSwarmResult.get_output`: `None` unless an execution result is
present and its `results` dict holds the task name, else the stringified
node result.  (A present `node_result` object is always truthy.) -/
def DynamicSwarmResultM.get_output (r : DynamicSwarmResultM)
    (task_name : String) : Option String :=
  match r.execution_result with
  | some g =>
    match g.results.lookup task_name with
    | some nr => some nr.resultText
    | none => none
  | none => none

/-- `_PlanningResult` from `dynamic_swarm.py` (the orchestrator handle is
opaque to the control flow modelled here). -/
structure PlanningResultM where
  success : Bool
  output : Option String
  error : Option String
deriving DecidableEq, Repr

/-- The `task_outputs` list collected by `_synthesize_final_response`:
iterate the task registry in insertion order, skip tasks without a stored
node result, and format the rest. -/
def taskOutputs (defn : SwarmConfig) (g : GraphResultM) : List String :=
  defn.tasks.filterMap (fun p =>
    (g.results.lookup p.1).map
      (fun nr => "[" ++ p.1 ++ "]:\n" ++ nr.resultText))

/-- `DynamicSwarm._synthesize_final_response`.  The synthesis collaborator
(the orchestrator agent) is external; `synthOut` is the text it would return
(`none` when it raises or returns no text).  The boolean records whether the
collaborator was invoked at all. -/
def synthesizeFinal (defn : SwarmConfig)
    (execution_result : Option GraphResultM) (synthOut : Option String) :
    Bool × Option String :=
  match execution_result with
  | none => (false, none)
  | some g =>
    let outs := taskOutputs defn g
    if outs.isEmpty then (false, none) else (true, synthOut)

/-- `Status.value` of the `strands` status enum, as interpolated into the
non-`COMPLETED` error message. -/
def statusValue : Status → String
  | .pending => "pending"
  | .executing => "executing"
  | .completed => "completed"
  | .failed => "failed"
  | .interrupted => "interrupted"

/-- `DynamicSwarm.stream_async` from `dynamic_swarm.py`, as a function of the
external collaborators' outcomes: `defn` is the definition the planning
collaborator populated, `planning` its reported outcome, `execError` the
exception message if the graph stream raised, `execResult` the
`multiagent_result` it produced (if any), and `synthOut` the synthesis
collaborator's response.  Returns the `type` tags of the high-level events
yielded (raw pass-through graph events omitted) and the final
`DynamicSwarmResult`. -/
def streamRun (defn : SwarmConfig) (planning : PlanningResultM)
    (execError : Option String) (execResult : Option GraphResultM)
    (synthOut : Option String) : List String × DynamicSwarmResultM :=
  let ev0 := ["swarm_started", "planning_started"]
  if planning.success = false then
    (ev0 ++ ["planning_failed", "swarm_result"],
     { status := .failed, planning_output := planning.output,
       execution_result := none, final_response := none,
       agents_spawned := defn.agents.length,
       tasks_created := defn.tasks.length,
       error := orStr planning.error (some "Planning failed") })
  else if defn.tasks.isEmpty then
    (ev0 ++ ["planning_failed", "swarm_result"],
     { status := .failed, planning_output := planning.output,
       execution_result := none, final_response := none,
       agents_spawned := defn.agents.length, tasks_created := 0,
       error := some "No tasks were created" })
  else
    let ev1 := ev0 ++ ["planning_completed", "execution_started"]
    match execError with
    | some e =>
      (ev1 ++ ["execution_failed", "swarm_result"],
       { status := .failed, planning_output := planning.output,
         execution_result := execResult, final_response := none,
         agents_spawned := defn.agents.length,
         tasks_created := defn.tasks.length, error := some e })
    | none =>
      match execResult with
      | none =>
        (ev1 ++ ["execution_failed", "swarm_result"],
         { status := .failed, planning_output := planning.output,
           execution_result := none, final_response := none,
           agents_spawned := defn.agents.length,
           tasks_created := defn.tasks.length,
           error := some "Graph completed without producing a result" })
      | some g =>
        (ev1 ++ ["execution_completed", "synthesis_started",
                 "synthesis_completed", "swarm_result"],
         { status := g.status, planning_output := planning.output,
           execution_result := some g,
           final_response := (synthesizeFinal defn (some g) synthOut).2,
           agents_spawned := defn.agents.length,
           tasks_created := defn.tasks.length,
           error :=
             if g.status = .completed then none
             else some ("Execution ended with status " ++
               statusValue g.status) })

/-! ## Task lifecycle lemmas -/

/-- The legal-transition table of spec §4.4. -/
def legalPairs : List (Status × Status) :=
  [(.pending, .executing), (.pending, .interrupted),
   (.executing, .completed), (.executing, .failed),
   (.executing, .interrupted)]

/-- Field-level characterization of a successful `transition_to`. -/
theorem transition_ok_fields {t t' : Task} {s : Status} {now : Nat}
    {r e : Option String} (heq : t.transition_to s now r e = .ok t') :
    s ∈ validTransitions t.status ∧ t'.status = s ∧
    t'.started_at = (if s = .executing then some now else t.started_at) ∧
    t'.completed_at =
      (if s ∈ TERMINAL_STATUSES then some now else t.completed_at) := by
  have hv : s ∈ validTransitions t.status := by
    by_contra hs
    unfold Task.transition_to at heq
    rw [if_neg hs] at heq
    simp at heq
  refine ⟨hv, ?_⟩
  unfold Task.transition_to at heq
  rw [if_pos hv] at heq
  cases r <;> cases e <;>
    · simp only [] at heq
      simp at heq
      subst heq
      by_cases h1 : s = .executing
      · subst h1
        simp [TERMINAL_STATUSES]
      · by_cases h2 : s ∈ TERMINAL_STATUSES <;> simp [h1, h2]

theorem mem_validTransitions_iff (st s : Status) :
    s ∈ validTransitions st ↔ (st, s) ∈ legalPairs := by
  cases st <;> cases s <;> simp [validTransitions, legalPairs]

/-- C2: `transition_to` succeeds exactly on the five pairs of the legal
table; on any other pair it raises `InvalidTransition(from, to)` before any
field assignment, so no successor state is produced and `status`,
`started_at` and `completed_at` are untouched. -/
theorem transition_legality (t : Task) (s : Status) (now : Nat)
    (r e : Option String) :
    ((∃ t', t.transition_to s now r e = .ok t') ↔
      (t.status, s) ∈ legalPairs) ∧
    ((t.status, s) ∉ legalPairs →
      t.transition_to s now r e = .error (.invalidTransition t.status s)) := by
  constructor
  · constructor
    · rintro ⟨t', ht⟩
      exact (mem_validTransitions_iff _ _).mp (transition_ok_fields ht).1
    · intro hmem
      have hv := (mem_validTransitions_iff t.status s).mpr hmem
      unfold Task.transition_to
      rw [if_pos hv]
      exact ⟨_, rfl⟩
  · intro hmem
    have hv : ¬ s ∈ validTransitions t.status := fun hh =>
      hmem ((mem_validTransitions_iff _ _).mp hh)
    unfold Task.transition_to
    rw [if_neg hv]

/-- Witness for C2: a duplicate `complete` notification on an
already-completed task is rejected with `InvalidTransition`. -/
theorem transition_legality_witness :
    ({ name := "t", agent := "a", description := none, depends_on := [],
       status := .completed, started_at := some 1, completed_at := some 2,
       result := none, error := none } : Task).transition_to
        .completed 3 none none
      = .error (.invalidTransition .completed .completed) :=
  (transition_legality
    { name := "t", agent := "a", description := none, depends_on := [],
      status := .completed, started_at := some 1, completed_at := some 2,
      result := none, error := none } .completed 3 none none).2 (by decide)

/-- C3 (amended): on every reachable task state `completed_at` is set iff
the status is terminal; `started_at` being set implies the status has left
`Pending`; and whenever the status is `Executing`, `Completed` or `Failed`
the task has a `started_at`.  (A task interrupted directly from `Pending`
has left `Pending` with `started_at` still unset, so the converse of the
second clause fails — see the counterexample.) -/
theorem task_timestamp_invariant {t : Task} (h : Reached t) :
    (t.completed_at ≠ none ↔ t.status ∈ TERMINAL_STATUSES) ∧
    (t.started_at ≠ none → t.status ≠ .pending) ∧
    (t.status ∈ ([.executing, .completed, .failed] : List Status) →
      t.started_at ≠ none) := by
  induction h with
  | init name agent description depends_on =>
    simp [initTask, TERMINAL_STATUSES]
  | @step t t' s now r e hr heq ih =>
    obtain ⟨hv, hstat, hstart, hcomp⟩ := transition_ok_fields heq
    obtain ⟨ih1, ih2, ih3⟩ := ih
    cases hs0 : s
    case pending =>
      rw [hs0] at hv
      cases hts : t.status <;> rw [hts] at hv <;>
        simp [validTransitions] at hv
    case executing =>
      rw [hs0] at hv hstat hstart hcomp
      cases hts : t.status <;> rw [hts] at hv <;>
        try simp [validTransitions] at hv
      rw [hts] at ih1
      have hc : t.completed_at = none := by
        by_contra hcc
        have := ih1.mp hcc
        simp [TERMINAL_STATUSES] at this
      refine ⟨?_, ?_, ?_⟩
      · rw [hcomp, hstat]
        simp [TERMINAL_STATUSES, hc]
      · intro _
        rw [hstat]
        simp
      · intro _
        rw [hstart]
        simp
    case completed =>
      rw [hs0] at hv hstat hstart hcomp
      cases hts : t.status <;> rw [hts] at hv <;>
        try simp [validTransitions] at hv
      rw [hts] at ih3
      refine ⟨?_, ?_, ?_⟩
      · rw [hcomp, hstat]
        simp [TERMINAL_STATUSES]
      · intro _
        rw [hstat]
        simp
      · intro _
        rw [hstart]
        simp
        exact ih3 (by simp)
    case failed =>
      rw [hs0] at hv hstat hstart hcomp
      cases hts : t.status <;> rw [hts] at hv <;>
        try simp [validTransitions] at hv
      rw [hts] at ih3
      refine ⟨?_, ?_, ?_⟩
      · rw [hcomp, hstat]
        simp [TERMINAL_STATUSES]
      · intro _
        rw [hstat]
        simp
      · intro _
        rw [hstart]
        simp
        exact ih3 (by simp)
    case interrupted =>
      rw [hs0] at hv hstat hstart hcomp
      refine ⟨?_, ?_, ?_⟩
      · rw [hcomp, hstat]
        simp [TERMINAL_STATUSES]
      · intro _
        rw [hstat]
        simp
      · intro habs
        rw [hstat] at habs
        simp at habs

/-- Witness for C3: the invariant instantiated at the freshly created task. -/
theorem task_timestamp_invariant_witness :
    ((initTask "t" "a" none []).completed_at ≠ none ↔
      (initTask "t" "a" none []).status ∈ TERMINAL_STATUSES) :=
  (task_timestamp_invariant (Reached.init "t" "a" none [])).1

/-- Counterexample for C3 as stated: interrupting a `Pending` task succeeds
and leaves `started_at = None` although the status has left `Pending`, so
"`started_at` set iff status has left Pending" fails on the code. -/
theorem task_timestamp_counterexample :
    ((initTask "t" "a" none []).transition_to .interrupted 7 none
        (some "cancelled")).map (fun t => (t.status, t.started_at))
      = .ok (Status.interrupted, none) := by
  rfl

/-! ## Claim C1: incremental dependency validation gives acyclicity -/

/-- The per-call preconditions of a `register_task` sequence: each call's
name is fresh, its agent is registered, and its `depends_on` references only
previously-registered task names. -/
def ValidCalls : SwarmConfig → List TaskDefinition → Prop
  | _, [] => True
  | c, d :: ds =>
    keyMem d.name c.tasks = false ∧ keyMem d.agent c.agents = true ∧
    (∀ dep ∈ d.depends_on, keyMem dep c.tasks = true) ∧
    ValidCalls { c with tasks := c.tasks ++ [(d.name, d)] } ds

theorem register_tasks_valid {ds : List TaskDefinition} :
    ∀ {c : SwarmConfig}, ClosedTasks c.tasks → AcyclicTasks c.tasks →
      ValidCalls c ds →
      ∃ c', register_tasks c ds = .ok c' ∧ AcyclicTasks c'.tasks ∧
        ClosedTasks c'.tasks := by
  induction ds with
  | nil =>
    intro c h1 h2 _
    exact ⟨c, rfl, h2, h1⟩
  | cons d ds ih =>
    intro c h1 h2 hv
    obtain ⟨hn, ha, hdeps, hrest⟩ := hv
    have hok := register_task_ok hn ha hdeps
    have h1' : ClosedTasks
        ({ c with tasks := c.tasks ++ [(d.name, d)] } : SwarmConfig).tasks :=
      closed_append h1 hdeps
    have h2' : AcyclicTasks
        ({ c with tasks := c.tasks ++ [(d.name, d)] } : SwarmConfig).tasks :=
      acyclic_append h2 h1 hn hdeps
    obtain ⟨c', hcall, hac, hcl⟩ := ih h1' h2' hrest
    exact ⟨c', by simp [register_tasks, hok, hcall], hac, hcl⟩

/-- C1 (amended): starting from a fresh definition, a `register_task`
sequence in which every call has a fresh task name, a registered agent and
only previously-registered dependency names succeeds entirely, and the
resulting dependency graph is acyclic; and a single call with a fresh name
and registered agent that mentions an unregistered dependency fails with the
unknown-dependency error (raised before the store, so the registry is
untouched). -/
theorem register_task_properties (c : SwarmConfig) (ds : List TaskDefinition)
    (d : TaskDefinition) :
    (c.tasks = [] → ValidCalls c ds →
      ∃ c', register_tasks c ds = .ok c' ∧ AcyclicTasks c'.tasks) ∧
    (keyMem d.name c.tasks = false → keyMem d.agent c.agents = true →
      (∃ dep ∈ d.depends_on, keyMem dep c.tasks = false) →
      ∃ dep, dep ∈ d.depends_on ∧ keyMem dep c.tasks = false ∧
        c.register_task d = .error (.dependencyNotFound dep)) := by
  constructor
  · intro hnil hv
    have h1 : ClosedTasks c.tasks := by rw [hnil]; exact closedTasks_nil
    have h2 : AcyclicTasks c.tasks := by rw [hnil]; exact acyclicTasks_nil
    obtain ⟨c', hcall, hac, _⟩ := register_tasks_valid h1 h2 hv
    exact ⟨c', hcall, hac⟩
  · intro h1 h2 hbad
    have hsome : (d.depends_on.find?
        (fun dep => !(keyMem dep c.tasks))).isSome := by
      rw [List.find?_isSome]
      obtain ⟨dep, hmem, hdep⟩ := hbad
      exact ⟨dep, hmem, by simp [hdep]⟩
    obtain ⟨dep, hfind⟩ := Option.isSome_iff_exists.mp hsome
    refine ⟨dep, List.mem_of_find?_eq_some hfind, ?_, ?_⟩
    · have := List.find?_some hfind
      simpa using this
    · unfold SwarmConfig.register_task
      rw [if_neg (by simp [h1]), if_pos h2, hfind]

/-- Counterexample for C1 as stated: on a fresh definition a `register_task`
call whose (empty) `depends_on` references only previously-registered task
names still fails — its agent is unknown — so the dependency condition alone
does not make every call succeed. -/
theorem register_task_counterexample :
    (∀ dep ∈ (TaskDefinition.mk "t" "a" none []).depends_on,
      keyMem dep (freshConfig [] [] none).tasks = true) ∧
    register_tasks (freshConfig [] [] none)
        [TaskDefinition.mk "t" "a" none []]
      = .error (.agentNotFound "a") := by
  constructor
  · intro dep hdep
    simp at hdep
  · rfl

/-- A concrete configuration with one registered agent, used to exercise
the C1 theorem. -/
def configC1 : SwarmConfig :=
  { available_tools := [], available_models := [], default_model := none,
    agents := [("a", ⟨"a", "r", none, [], none, some "\x1b[94m"⟩)],
    tasks := [], entry_task := none, color_index := 1 }

/-- Witness for C1: a diamond-free two-task sequence on `configC1`
satisfies the preconditions and yields an acyclic registry. -/
theorem register_task_properties_witness :
    ∃ c', register_tasks configC1
        [TaskDefinition.mk "t1" "a" none [],
         TaskDefinition.mk "t2" "a" none ["t1"]] = .ok c' ∧
      AcyclicTasks c'.tasks :=
  (register_task_properties configC1
    [TaskDefinition.mk "t1" "a" none [],
     TaskDefinition.mk "t2" "a" none ["t1"]]
    (TaskDefinition.mk "x" "a" none [])).1 rfl
    (by
      refine ⟨rfl, rfl, ?_, rfl, rfl, ?_, trivial⟩
      · intro dep hdep
        simp at hdep
      · intro dep hdep
        simp at hdep
        rw [hdep]
        rfl)

/-! ## Claim C10: the first registered task has no dependencies -/

/-- Registry states reachable from a fresh configuration by successful
`register_agent` / `register_task` calls. -/
inductive ConfigReach : SwarmConfig → Prop where
  | init (tools models : List String) (dm : Option String) :
      ConfigReach (freshConfig tools models dm)
  | agentStep {c c' : SwarmConfig} (d : AgentDefinition) :
      ConfigReach c → c.register_agent d = .ok c' → ConfigReach c'
  | taskStep {c c' : SwarmConfig} (d : TaskDefinition) :
      ConfigReach c → c.register_task d = .ok c' → ConfigReach c'

theorem head_task_no_deps {c : SwarmConfig} (h : ConfigReach c) :
    ∀ n d, c.tasks.head? = some (n, d) → d.depends_on = [] := by
  induction h with
  | init tools models dm =>
    intro n d hh
    simp [freshConfig] at hh
  | @agentStep c0 c' d hr heq ih =>
    obtain ⟨-, hpush⟩ := register_agent_ok_inv heq
    subst hpush
    intro n d0 hh
    exact ih n d0 hh
  | @taskStep c0 c' d hr heq ih =>
    obtain ⟨-, -, hdeps, hpush⟩ := register_task_ok_inv heq
    subst hpush
    intro n d0 hh
    dsimp only at hh
    cases hts : c0.tasks with
    | nil =>
      rw [hts] at hh
      simp at hh
      have hd0 : d0 = d := by
        first
        | exact hh.2
        | exact hh.2.symm
      rw [hd0]
      refine List.eq_nil_iff_forall_not_mem.mpr ?_
      intro dep hdep
      have := hdeps dep hdep
      rw [hts] at this
      simp [keyMem, List.lookup] at this
    | cons p ts =>
      rw [hts] at hh
      simp at hh
      apply ih n d0
      rw [hts]
      simp [hh]

/-- C10: in every registry state reachable from empty by successful
registrations, a nonempty task registry contains a task with an empty
`depends_on` list — in particular the first registered task has none — so
the built graph always has a root and a no-roots configuration is
unreachable through the registration interface. -/
theorem reachable_has_root {c : SwarmConfig} (h : ConfigReach c) :
    (c.tasks ≠ [] → ∃ p ∈ c.tasks, p.2.depends_on = []) ∧
    (∀ n d, c.tasks.head? = some (n, d) → d.depends_on = []) := by
  refine ⟨?_, head_task_no_deps h⟩
  intro hne
  cases hts : c.tasks with
  | nil => exact absurd hts hne
  | cons p ts =>
    refine ⟨p, by simp, ?_⟩
    have := head_task_no_deps h p.1 p.2 (by rw [hts]; rfl)
    exact this

/-- Witness for C10: a concrete reachable configuration with one agent and
one dependency-free task has a root. -/
theorem reachable_has_root_witness :
    ∃ p ∈ ({ available_tools := [], available_models := [],
             default_model := none,
             agents := [("a", ⟨"a", "r", none, [], none, some "\x1b[94m"⟩)],
             tasks := [("t1", ⟨"t1", "a", none, []⟩)], entry_task := none,
             color_index := 1 } : SwarmConfig).tasks,
      p.2.depends_on = [] :=
  (reachable_has_root
    (ConfigReach.taskStep ⟨"t1", "a", none, []⟩
      (ConfigReach.agentStep ⟨"a", "r", none, [], none, none⟩
        (ConfigReach.init [] [] none) rfl) rfl)).1 (by simp)

/-! ## Claim C8: deterministic palette color assignment -/

/-- The color invariant maintained by `register_agent`: the color index
counts the registrations so far, and the `i`-th registered agent carries the
`i`-th palette color (mod palette size). -/
def ColorInv (c : SwarmConfig) : Prop :=
  c.color_index = c.agents.length ∧
  ∀ i p, c.agents[i]? = some p → p.2.color = some (colorFor i)

theorem colorInv_push {c : SwarmConfig} {d : AgentDefinition}
    (h : ColorInv c) : ColorInv (c.pushAgent d) := by
  obtain ⟨hlen, hcol⟩ := h
  constructor
  · simp [SwarmConfig.pushAgent, hlen]
  · intro i p hp
    simp only [SwarmConfig.pushAgent] at hp
    rcases Nat.lt_trichotomy i c.agents.length with hlt | heq | hgt
    · rw [List.getElem?_append, if_pos hlt] at hp
      exact hcol i p hp
    · subst heq
      rw [List.getElem?_append, if_neg (lt_irrefl _)] at hp
      simp at hp
      subst hp
      simp [hlen]
    · rw [List.getElem?_append, if_neg (by omega)] at hp
      cases hd : i - c.agents.length with
      | zero => omega
      | succ k => rw [hd] at hp; simp at hp

theorem register_agents_colors {ds : List AgentDefinition} :
    ∀ {c c' : SwarmConfig}, ColorInv c →
      register_agents c ds = .ok c' →
      ColorInv c' ∧ c'.agents.length = c.agents.length + ds.length := by
  induction ds with
  | nil =>
    intro c c' h heq
    simp [register_agents] at heq
    subst heq
    exact ⟨h, by simp⟩
  | cons d ds ih =>
    intro c c' h heq
    unfold register_agents at heq
    cases hcall : c.register_agent d with
    | error e => rw [hcall] at heq; simp at heq
    | ok c1 =>
      rw [hcall] at heq
      dsimp only at heq
      obtain ⟨-, hpush⟩ := register_agent_ok_inv hcall
      subst hpush
      obtain ⟨hinv, hlen⟩ := ih (colorInv_push h) heq
      refine ⟨hinv, ?_⟩
      rw [hlen]
      simp [SwarmConfig.pushAgent]
      omega

/-- C8: after `N` sequential successful registrations on a fresh registry,
the `i`-th registered agent (from 0) carries palette color
`AGENT_COLORS[i % len(AGENT_COLORS)]`, and the internal color index equals
the number of successful registrations. -/
theorem agent_color_assignment (tools models : List String)
    (dm : Option String) (ds : List AgentDefinition) (c' : SwarmConfig)
    (h : register_agents (freshConfig tools models dm) ds = .ok c') :
    c'.agents.length = ds.length ∧ c'.color_index = ds.length ∧
    ∀ i p, c'.agents[i]? = some p → p.2.color = some (colorFor i) := by
  have hinv0 : ColorInv (freshConfig tools models dm) := by
    constructor
    · simp [freshConfig]
    · intro i p hp
      simp [freshConfig] at hp
  obtain ⟨⟨hlen, hcol⟩, hcount⟩ := register_agents_colors hinv0 h
  simp [freshConfig] at hcount
  exact ⟨hcount, by rw [hlen, hcount], hcol⟩

/-- Witness for C8: two concrete registrations receive the first two
palette colors and leave the color index at 2. -/
theorem agent_color_assignment_witness :
    ∃ c', register_agents (freshConfig [] [] none)
        [⟨"a", "ra", none, [], none, none⟩,
         ⟨"b", "rb", none, [], none, none⟩] = .ok c' ∧
      c'.agents.length = 2 ∧ c'.color_index = 2 ∧
      ∀ i p, c'.agents[i]? = some p → p.2.color = some (colorFor i) := by
  refine ⟨_, rfl, ?_⟩
  exact agent_color_assignment [] [] none
    [⟨"a", "ra", none, [], none, none⟩, ⟨"b", "rb", none, [], none, none⟩]
    _ rfl

/-! ## Claim C9: growth of the registries under registration operations -/

/-- The registry operations the planner-facing interface exposes during a
run. -/
inductive RegOp where
  | regAgent (d : AgentDefinition)
  | regTask (d : TaskDefinition)
  | setEntry (n : String)
deriving DecidableEq, Repr

/-- Apply one operation; a raising call leaves the object unchanged (every
`raise` in the source precedes the dict store). -/
def applyOp (c : SwarmConfig) : RegOp → SwarmConfig
  | .regAgent d =>
    match c.register_agent d with
    | .ok c' => c'
    | .error _ => c
  | .regTask d =>
    match c.register_task d with
    | .ok c' => c'
    | .error _ => c
  | .setEntry n =>
    match c.set_entry_task n with
    | .ok c' => c'
    | .error _ => c

theorem lookup_append_some {β : Type} {l : List (String × β)}
    (l₂ : List (String × β)) {a : String} {v : β}
    (h : l.lookup a = some v) : (l ++ l₂).lookup a = some v := by
  rw [lookup_append, h]
  rfl

theorem applyOp_preserves (c : SwarmConfig) (op : RegOp) :
    (∀ a d, c.agents.lookup a = some d →
      (applyOp c op).agents.lookup a = some d) ∧
    (∀ n d, c.tasks.lookup n = some d →
      (applyOp c op).tasks.lookup n = some d) := by
  cases op with
  | regAgent d0 =>
    cases hcall : c.register_agent d0 with
    | error e => simp [applyOp, hcall]
    | ok c1 =>
      obtain ⟨-, hpush⟩ := register_agent_ok_inv hcall
      subst hpush
      constructor
      · intro a d h
        simp only [applyOp, hcall, SwarmConfig.pushAgent]
        exact lookup_append_some _ h
      · intro n d h
        simpa [applyOp, hcall, SwarmConfig.pushAgent] using h
  | regTask d0 =>
    cases hcall : c.register_task d0 with
    | error e => simp [applyOp, hcall]
    | ok c1 =>
      obtain ⟨-, -, -, hpush⟩ := register_task_ok_inv hcall
      subst hpush
      constructor
      · intro a d h
        simpa [applyOp, hcall] using h
      · intro n d h
        simp only [applyOp, hcall]
        exact lookup_append_some _ h
  | setEntry n0 =>
    by_cases hk : keyMem n0 c.tasks = true
    · simp [applyOp, SwarmConfig.set_entry_task, hk]
    · simp [applyOp, SwarmConfig.set_entry_task,
        Bool.of_not_eq_true hk]

/-- C9 (amended): the planner-facing registration operations
(`register_agent`, `register_task`, `set_entry_task`) never remove or
rebind a previously registered worker or task — once registered, a name
stays mapped to the same definition across any further sequence of these
operations; only the run-teardown `clear` empties the registries (see the
counterexample). -/
theorem registry_grow_only (ops : List RegOp) :
    ∀ (c : SwarmConfig),
      (∀ a d, c.agents.lookup a = some d →
        (ops.foldl applyOp c).agents.lookup a = some d) ∧
      (∀ n d, c.tasks.lookup n = some d →
        (ops.foldl applyOp c).tasks.lookup n = some d) := by
  induction ops with
  | nil => exact fun c => ⟨fun a d h => h, fun n d h => h⟩
  | cons op ops ih =>
    intro c
    constructor
    · intro a d h
      exact (ih (applyOp c op)).1 a d ((applyOp_preserves c op).1 a d h)
    · intro n d h
      exact (ih (applyOp c op)).2 n d ((applyOp_preserves c op).2 n d h)

/-- Witness for C9: the registered agent `"a"` survives a concrete sequence
of further operations. -/
theorem registry_grow_only_witness :
    (List.foldl applyOp configC1
        [.regTask ⟨"t1", "a", none, []⟩, .setEntry "t1",
         .regAgent ⟨"b", "rb", none, [], none, none⟩]).agents.lookup "a"
      = some ⟨"a", "r", none, [], none, some "\x1b[94m"⟩ :=
  (registry_grow_only
    [.regTask ⟨"t1", "a", none, []⟩, .setEntry "t1",
     .regAgent ⟨"b", "rb", none, [], none, none⟩] configC1).1
    "a" ⟨"a", "r", none, [], none, some "\x1b[94m"⟩ rfl

/-- Counterexample for C9 as stated: `clear` is a registry operation that
removes a previously registered (and still present) worker, so the
registries are not grow-only under every registry operation. -/
theorem registry_grow_only_counterexample :
    ((freshConfig [] [] none).register_agent
        ⟨"a", "r", none, [], none, none⟩).map
      (fun c' => (keyMem "a" c'.agents, keyMem "a" c'.clear.agents))
      = .ok (true, false) := by
  rfl

/-! ## Claim C4: callback ordering per event kind -/

/-- C4: the reversed-delivery flag is `true` exactly for the six
completion-style kinds; consequently two observers registered in order
`A, B` are invoked as `B, A` for a completion kind and `A, B` for a
start/created kind. -/
theorem callback_ordering :
    (∀ k, should_reverse_callbacks k = true ↔ k ∈ completionKinds) ∧
    (∀ (α : Type) (A B : α) (k : EventKind),
      should_reverse_callbacks k = true → deliveryOrder [A, B] k = [B, A]) ∧
    (∀ (α : Type) (A B : α) (k : EventKind),
      should_reverse_callbacks k = false →
        deliveryOrder [A, B] k = [A, B]) := by
  refine ⟨?_, ?_, ?_⟩
  · intro k
    cases k <;> simp [should_reverse_callbacks, completionKinds]
  · intro α A B k h
    simp [deliveryOrder, h]
  · intro α A B k h
    simp [deliveryOrder, h]

/-- Witness for C4: with observers `0` then `1`, a `TaskCompleted` event is
delivered to `1` first, and a `TaskStarted` event to `0` first. -/
theorem callback_ordering_witness :
    deliveryOrder [0, 1] .taskCompleted = [1, 0] ∧
    deliveryOrder [0, 1] .taskStarted = [0, 1] :=
  ⟨callback_ordering.2.1 Nat 0 1 .taskCompleted rfl,
   callback_ordering.2.2 Nat 0 1 .taskStarted rfl⟩

/-! ## Claim C5: planning success without tasks fails the run -/

/-- C5: when the planning collaborator reports success but no task was
registered, the run ends `Failed` with the no-tasks-created error string, a
null final response and `tasks_created = 0`, and neither the execution phase
nor the synthesis phase is entered. -/
theorem no_tasks_created_failure (defn : SwarmConfig)
    (planning : PlanningResultM) (execError : Option String)
    (execResult : Option GraphResultM) (synthOut : Option String)
    (evs : List String) (res : DynamicSwarmResultM)
    (hs : planning.success = true) (ht : defn.tasks = [])
    (hout : streamRun defn planning execError execResult synthOut
      = (evs, res)) :
    res.status = .failed ∧ res.error = some "No tasks were created" ∧
    res.final_response = none ∧ res.tasks_created = 0 ∧
    "execution_started" ∉ evs ∧ "synthesis_started" ∉ evs := by
  simp only [streamRun, hs, ht] at hout
  simp at hout
  obtain ⟨hevs, hres⟩ := hout
  subst hevs
  subst hres
  refine ⟨rfl, rfl, rfl, rfl, ?_, ?_⟩ <;> simp

/-- Witness for C5: a concrete successful-planning, zero-task run. -/
theorem no_tasks_created_failure_witness :
    (streamRun (freshConfig [] [] none) ⟨true, some "plan", none⟩ none none
        none).2.status = .failed ∧
    (streamRun (freshConfig [] [] none) ⟨true, some "plan", none⟩ none none
        none).2.error = some "No tasks were created" :=
  ⟨(no_tasks_created_failure (freshConfig [] [] none) ⟨true, some "plan", none⟩
      none none none _ _ rfl rfl rfl).1,
   (no_tasks_created_failure (freshConfig [] [] none) ⟨true, some "plan", none⟩
      none none none _ _ rfl rfl rfl).2.1⟩

/-! ## Claim C6: partial outputs remain queryable -/

/-- C6: with an execution result whose `results` dict lacks task `ta` (the
engine stores no result for a failed node) and holds a result for `tb`,
`get_output ta` is `None`, `get_output tb` is the stringified node result,
and `get_output` is independent of the overall (possibly `Failed`) status. -/
theorem get_output_on_failure (r : DynamicSwarmResultM) (g : GraphResultM)
    (nr : NodeResult) (ta tb : String)
    (hr : r.execution_result = some g) (_hst : r.status = .failed)
    (ha : g.results.lookup ta = none) (hb : g.results.lookup tb = some nr) :
    r.get_output ta = none ∧ r.get_output tb = some nr.resultText ∧
    (∀ (n : String) (st : Status),
      ({ r with status := st } : DynamicSwarmResultM).get_output n
        = r.get_output n) := by
  refine ⟨?_, ?_, fun n st => rfl⟩
  · simp [DynamicSwarmResultM.get_output, hr, ha]
  · simp [DynamicSwarmResultM.get_output, hr, hb]

/-- Witness for C6: a concrete failed run with a result for `"b"` only. -/
theorem get_output_on_failure_witness :
    ({ status := .failed, planning_output := none,
       execution_result := some ⟨.failed, [("b", ⟨"out-b"⟩)]⟩,
       final_response := none, agents_spawned := 1, tasks_created := 2,
       error := some "Execution ended with status failed" }
        : DynamicSwarmResultM).get_output "a" = none ∧
    ({ status := .failed, planning_output := none,
       execution_result := some ⟨.failed, [("b", ⟨"out-b"⟩)]⟩,
       final_response := none, agents_spawned := 1, tasks_created := 2,
       error := some "Execution ended with status failed" }
        : DynamicSwarmResultM).get_output "b" = some "out-b" := by
  refine ⟨?_, ?_⟩
  · exact (get_output_on_failure _ ⟨.failed, [("b", ⟨"out-b"⟩)]⟩ ⟨"out-b"⟩
      "a" "b" rfl rfl rfl rfl).1
  · exact (get_output_on_failure _ ⟨.failed, [("b", ⟨"out-b"⟩)]⟩ ⟨"out-b"⟩
      "a" "b" rfl rfl rfl rfl).2.1

/-! ## Claim C7: synthesis collects stored results and is skipped when none -/

theorem length_filterMap_isSome {α β : Type} (f : α → Option β)
    (l : List α) :
    (l.filterMap f).length = (l.filter (fun a => (f a).isSome)).length := by
  induction l with
  | nil => rfl
  | cons x xs ih => cases hf : f x <;> simp [List.filterMap_cons, hf, ih]

/-- C7: synthesis formats one entry per task that has a stored result
(skipping the rest); when no task produced a result the synthesis
collaborator is not invoked, the final response is `None`, and the run's
status and error are exactly those the execution status dictates (a null
synthesis does not turn the run into an error). -/
theorem synthesis_skipped (defn : SwarmConfig) (g : GraphResultM)
    (synthOut : Option String) (planning : PlanningResultM)
    (evs : List String) (res : DynamicSwarmResultM)
    (hnone : ∀ p ∈ defn.tasks, g.results.lookup p.1 = none)
    (hs : planning.success = true) (hne : defn.tasks ≠ [])
    (hout : streamRun defn planning none (some g) synthOut = (evs, res)) :
    synthesizeFinal defn (some g) synthOut = (false, none) ∧
    res.final_response = none ∧ res.status = g.status ∧
    (g.status = .completed → res.error = none) ∧
    (taskOutputs defn g).length =
      (defn.tasks.filter (fun p => (g.results.lookup p.1).isSome)).length := by
  have houts : taskOutputs defn g = [] := by
    rw [taskOutputs, List.filterMap_eq_nil_iff]
    intro p hp
    rw [hnone p hp]
    rfl
  have hsynth : synthesizeFinal defn (some g) synthOut = (false, none) := by
    simp [synthesizeFinal, houts]
  have hIE : defn.tasks.isEmpty = false := by
    cases hts : defn.tasks with
    | nil => exact absurd hts hne
    | cons p ts => rfl
  simp only [streamRun, hs, hIE] at hout
  simp at hout
  obtain ⟨hevs, hres⟩ := hout
  subst hres
  refine ⟨hsynth, ?_, rfl, ?_, ?_⟩
  · simp [hsynth]
  · intro hc
    simp [hc]
  · rw [taskOutputs, length_filterMap_isSome]
    simp

/-- A concrete configuration with one agent and one task, used to exercise
the C7 theorem. -/
def configC7 : SwarmConfig :=
  { available_tools := [], available_models := [], default_model := none,
    agents := [("a", ⟨"a", "r", none, [], none, some "\x1b[94m"⟩)],
    tasks := [("t1", ⟨"t1", "a", none, []⟩)], entry_task := none,
    color_index := 1 }

/-- Witness for C7: one registered task, an execution result storing
nothing: synthesis is skipped and the completed status carries no error. -/
theorem synthesis_skipped_witness :
    synthesizeFinal configC7 (some ⟨.completed, []⟩) (some "synth")
      = (false, none) ∧
    (streamRun configC7 ⟨true, some "plan", none⟩ none
        (some ⟨.completed, []⟩) (some "synth")).2.error = none := by
  constructor
  · exact (synthesis_skipped configC7 ⟨.completed, []⟩ (some "synth")
      ⟨true, some "plan", none⟩ _ _ (by intro p hp; rfl) rfl
      (by simp [configC7]) rfl).1
  · exact (synthesis_skipped configC7 ⟨.completed, []⟩ (some "synth")
      ⟨true, some "plan", none⟩ _ _ (by intro p hp; rfl) rfl
      (by simp [configC7]) rfl).2.2.2.1 rfl

end StrandsSwarms
